import Mathlib

/-!
Shallow embedding of the mining shim scheduler core
(src/mining_shim/libminingshim.c, declarations in libminingshim.h).

Modelling conventions:
  - u64 / u32 fields are Nat with explicit reduction mod 2 ^ 64 / 2 ^ 32 at
    the operations where the C code can overflow (seed derivation, counter
    increments, unsigned subtraction).
  - the pthread mutexes and the condition variable only serialize access;
    the sequential model passes the protected state explicitly.  The
    condition-variable wait outcome of one loop pass is an input of the
    iteration function (WaitResult), and a cond_signal that the code emits
    is returned as a Bool.
  - IEEE double arithmetic is modelled by FpVal: a rational payload for
    finite values (rounding of arithmetic is abstracted away; none of the
    verified properties depends on it) plus explicit positive infinity,
    negative infinity and NaN, with the IEEE special-value propagation of
    the operations the code performs.  The transcendental log cannot be
    computed in the model, so the double value of -log(1.0 - u) is an
    explicit parameter (neglog) of the functions that use it; it is finite
    and nonnegative for every draw u in [0, 1).
  - external collaborators reached through dlsym (create_block) are outside
    the program: whether the symbol resolves and what the call returns are
    Bool parameters.
-/

def U64 : Nat := 2 ^ 64

def U32 : Nat := 2 ^ 32

/-- Reduction of a Nat into the u64 range, used at every point where the C
code performs 64-bit unsigned arithmetic that can wrap. -/
def u64mod (n : Nat) : Nat := n % U64

/-- Unsigned 64-bit subtraction a - b with wraparound, as the C expression
computes it on u64 operands. -/
def u64sub (a b : Nat) : Nat := (a % U64 + U64 - b % U64) % U64

/-- difficulty_tracker_t from libminingshim.h (the mutex is abstracted away;
the model passes the tracker explicitly). -/
structure DifficultyTracker where
  current_difficulty : Nat
  last_update_height : Nat
  deriving DecidableEq

/-- shim_metrics_t from libminingshim.h. -/
structure ShimMetrics where
  blocks_found : Nat
  mining_iterations : Nat
  peer_blocks_received : Nat
  mining_start_time : Nat
  total_mining_time_ns : Nat
  last_block_time_ns : Nat
  mining_errors : Nat
  deriving DecidableEq

/-- block_info_t from libminingshim.h. -/
structure BlockInfo where
  height : Nat
  difficulty : Nat
  timestamp : Nat
  deriving DecidableEq

/-- mining_state_t reduced to its logical content: the is_mining flag.  The
thread handle, mutex and condition variable carry no sequential state. -/
structure MiningState where
  is_mining : Bool
  deriving DecidableEq

/-- shim_config_t reduced to the three required numeric inputs (log level and
log file path do not take part in any verified property). -/
structure ShimConfig where
  miner_hashrate : Nat
  agent_id : Nat
  simulation_seed : Nat
  deriving DecidableEq

/-- Metrics after C initialization: memset to zero (initialize_metrics in the
C source). -/
def init_metrics : ShimMetrics := ⟨0, 0, 0, 0, 0, 0, 0⟩

/-- Mining state and difficulty tracker after C initialization
(initialize_mining_state in the C source): everything zeroed, then
current_difficulty is set to the default 1. -/
def init_mining_state : MiningState × DifficultyTracker :=
  (⟨false⟩, ⟨1, 0⟩)

/-- update_network_difficulty (libminingshim.c lines 238-247): takes the
difficulty mutex, overwrites current_difficulty and last_update_height with
the fields of the incoming block_info_t, releases the mutex, and increments
peer_blocks_received.  There is no comparison against the stored height:
every notification takes effect. -/
def update_network_difficulty (t : DifficultyTracker) (m : ShimMetrics)
    (nb : BlockInfo) : DifficultyTracker × ShimMetrics :=
  (⟨nb.difficulty, nb.height⟩,
   { m with peer_blocks_received := u64mod (m.peer_blocks_received + 1) })

/-- get_current_network_difficulty (libminingshim.c lines 249-255). -/
def get_current_network_difficulty (t : DifficultyTracker) : Nat :=
  t.current_difficulty

/-- mining_shim_difficulty_update_hook (libminingshim.c lines 614-631): feeds
a block_info_t built as (height, new_difficulty, 0) to
update_network_difficulty, then signals the condition variable when mining
is active.  The returned Bool records whether the signal was emitted. -/
def mining_shim_difficulty_update_hook (t : DifficultyTracker)
    (m : ShimMetrics) (st : MiningState) (new_difficulty height : Nat) :
    DifficultyTracker × ShimMetrics × Bool :=
  let tm := update_network_difficulty t m ⟨height, new_difficulty, 0⟩
  (tm.1, tm.2, st.is_mining)

/-- handle_new_block_notify (libminingshim.c lines 665-680): the peer-block
path; identical state effect to the difficulty hook. -/
def handle_new_block_notify (t : DifficultyTracker) (m : ShimMetrics)
    (st : MiningState) (nb : BlockInfo) :
    DifficultyTracker × ShimMetrics × Bool :=
  let tm := update_network_difficulty t m nb
  (tm.1, tm.2, st.is_mining)

/-- load_configuration (libminingshim.c lines 117-161).  The three required
environment variables are modelled as Option Nat carrying the numeric value
the C strtoull / strtoul call would produce (none = variable missing).  When
any of the three is missing, the function prints a diagnostic and RETURNS
without exiting, leaving the zero-filled global g_config untouched; the
numeric fields are only assigned when all three are present. -/
def load_configuration (cfg : ShimConfig)
    (hashrate_env agent_id_env seed_env : Option Nat) : ShimConfig :=
  match hashrate_env, agent_id_env, seed_env with
  | some h, some a, some s => ⟨u64mod h, a % U32, u64mod s⟩
  | _, _, _ => cfg

/-- Zero-filled g_config, as the C global is before load_configuration. -/
def zero_config : ShimConfig := ⟨0, 0, 0⟩

/-- mining_shim_start_hook (libminingshim.c lines 508-548), state part.
Returns (handled, new state, new metrics, thread spawned).  Already mining:
logs a warning, returns true (handled) with nothing changed and no thread
created.  Otherwise sets is_mining, creates the worker thread (success of
pthread_create is the parameter pthread_create_ok; on failure the flag is
rolled back and false is returned), and on success records
mining_start_time = now. -/
def mining_shim_start_hook (st : MiningState) (m : ShimMetrics)
    (pthread_create_ok : Bool) (now : Nat) :
    Bool × MiningState × ShimMetrics × Bool :=
  if st.is_mining then (true, st, m, false)
  else if pthread_create_ok then
    (true, ⟨true⟩, { m with mining_start_time := now }, true)
  else (false, ⟨false⟩, m, false)

/-- mining_shim_stop_hook (libminingshim.c lines 551-574).  Returns
(handled, new state, new metrics, joined).  Not mining: logs a warning and
returns true immediately, without signalling, joining or touching metrics.
Otherwise clears is_mining, signals the wait, joins the worker, and then
ASSIGNS total_mining_time_ns = now - mining_start_time (u64 subtraction);
the previous value of the field is discarded, not added to. -/
def mining_shim_stop_hook (st : MiningState) (m : ShimMetrics) (now : Nat) :
    Bool × MiningState × ShimMetrics × Bool :=
  if st.is_mining then
    (true, ⟨false⟩,
     { m with total_mining_time_ns := u64sub now m.mining_start_time }, true)
  else (true, st, m, false)

/-- Multiplier of the drand48 linear congruential generator (glibc). -/
def DRAND48_A : Nat := 0x5DEECE66D

/-- Additive constant of the drand48 generator. -/
def DRAND48_C : Nat := 0xB

/-- Modulus of the 48-bit congruential state. -/
def M48 : Nat := 2 ^ 48

/-- Initial 48-bit state written by srand48_r: glibc keeps only the low 32
bits of the seed and sets X0 = (seed mod 2 ^ 32) * 2 ^ 16 + 0x330E. -/
def srand48_state (seedval : Nat) : Nat :=
  ((seedval % U32) * 2 ^ 16 + 0x330E) % M48

/-- One step of the drand48 recurrence: X := (A * X + C) mod 2 ^ 48. -/
def drand48_iterate (x : Nat) : Nat := (DRAND48_A * x + DRAND48_C) % M48

/-- prng_state_t reduced to its logical content: the 48-bit congruential
state plus the derived agent seed (mutex abstracted away). -/
structure PrngState where
  x : Nat
  agent_seed : Nat
  deriving DecidableEq

/-- initialize_deterministic_prng (libminingshim.c lines 199-211), renamed
because of a lexical restriction of this development: derives
agent_seed = global_seed + agent_id in u64 arithmetic and seeds the drand48
buffer from it. -/
def init_deterministic_prng (cfg : ShimConfig) : PrngState :=
  let seed := u64mod (cfg.simulation_seed + cfg.agent_id)
  ⟨srand48_state seed, seed⟩

/-- get_deterministic_random (libminingshim.c lines 214-220): under the prng
mutex, drand48_r advances the 48-bit state once and returns the new state
divided by 2 ^ 48 as a double.  A 48-bit integer times 2 ^ (-48) is exactly
representable as a double, so the rational X / 2 ^ 48 is the exact value the
C call returns. -/
def get_deterministic_random (s : PrngState) : ℚ × PrngState :=
  let x := drand48_iterate s.x
  ((x : ℚ) / (M48 : ℚ), ⟨x, s.agent_seed⟩)

/-- Sequence of n successive draws from a starting state, returned with the
final state (models n calls of get_deterministic_random in one run). -/
def draw_list (s : PrngState) : Nat → List ℚ × PrngState
  | 0 => ([], s)
  | n + 1 =>
    let r := get_deterministic_random s
    let rest := draw_list r.2 n
    (r.1 :: rest.1, rest.2)

/-- Abstraction of an IEEE double on the code paths the shim exercises: a
rational payload for finite values (arithmetic rounding abstracted; no
verified property depends on it), positive and negative infinity, and NaN.
Signed zero is collapsed to the rational 0; on the modelled paths a zero is
only ever divided or multiplied, where the sign of the zero does not change
which constructor results or the u64 cast of the result. -/
inductive FpVal where
  | finite (q : ℚ)
  | posInf
  | negInf
  | nan
  deriving DecidableEq

/-- IEEE division on the abstraction: NaN propagates; inf/inf is NaN;
inf divided by a finite keeps (for a nonnegative divisor) its sign;
finite/inf is zero; finite/0 is NaN when the dividend is zero and a signed
infinity otherwise; finite/finite is exact rational division. -/
def fpDiv : FpVal → FpVal → FpVal
  | .nan, _ => .nan
  | _, .nan => .nan
  | .posInf, .posInf => .nan
  | .posInf, .negInf => .nan
  | .negInf, .posInf => .nan
  | .negInf, .negInf => .nan
  | .posInf, .finite y => if 0 ≤ y then .posInf else .negInf
  | .negInf, .finite y => if 0 ≤ y then .negInf else .posInf
  | .finite _, .posInf => .finite 0
  | .finite _, .negInf => .finite 0
  | .finite x, .finite y =>
    if y = 0 then
      if x = 0 then .nan else if 0 < x then .posInf else .negInf
    else .finite (x / y)

/-- Multiplication by the positive constant 1e9 (exactly representable),
performing the seconds-to-nanoseconds scaling of the C code. -/
def fpMul1e9 : FpVal → FpVal
  | .finite x => .finite (10 ^ 9 * x)
  | .posInf => .posInf
  | .negInf => .negInf
  | .nan => .nan

/-- Result of a C cast of a double to uint64_t: a value when the conversion
is defined, and a marker for the undefined cases (NaN, infinities, and finite
values whose truncation toward zero falls outside the u64 range). -/
inductive U64Cast where
  | val (n : Nat)
  | undefined_value
  deriving DecidableEq

/-- C cast (uint64_t)d: truncation toward zero, defined exactly when the
truncated value is representable.  For q > -1 truncation toward zero agrees
with Int.toNat of the floor. -/
def fpToU64 : FpVal → U64Cast
  | .finite q => if -1 < q ∧ q < (U64 : ℚ) then .val (Int.toNat ⌊q⌋) else .undefined_value
  | .posInf => .undefined_value
  | .negInf => .undefined_value
  | .nan => .undefined_value

/-- calculate_block_discovery_time (libminingshim.c lines 223-231):
lambda = (double)hashrate / (double)difficulty, one draw u from the PRNG,
time_seconds = -log(1.0 - u) / lambda, result (uint64_t)(time_seconds * 1e9).
The integer-to-double casts are exact up to 2 ^ 53 and abstracted beyond;
the transcendental -log(1.0 - u) is the explicit parameter neglog (finite
and nonnegative for every u in [0, 1)).  The draw advances the PRNG state,
which is returned.  There is no validation of hashrate or difficulty and no
error result: the function always returns the cast of whatever double the
arithmetic produced. -/
def calculate_block_discovery_time (hashrate difficulty : Nat)
    (s : PrngState) (neglog : FpVal) : U64Cast × PrngState :=
  let lam := fpDiv (.finite (hashrate : ℚ)) (.finite (difficulty : ℚ))
  let u := get_deterministic_random s
  let time_seconds := fpDiv neglog lam
  (fpToU64 (fpMul1e9 time_seconds), u.2)

/-- generate_deterministic_nonce (libminingshim.c lines 233-235):
(uint32_t)(u * UINT32_MAX); the multiplication rounding is abstracted, the
cast truncates toward zero. -/
def generate_deterministic_nonce (s : PrngState) : Nat × PrngState :=
  let r := get_deterministic_random s
  (Int.toNat (r.1 * ((U32 - 1 : Nat) : ℚ)).floor, r.2)

/-- block_template_t (libminingshim.c lines 270-278), numeric fields. -/
structure BlockTemplate where
  nonce : Nat
  timestamp : Nat
  version : Nat
  difficulty : Nat
  height : Nat
  deriving DecidableEq

/-- Outcome of one create_and_broadcast_block call. -/
inductive BroadcastOutcome where
  | collaborator_missing
  | success
  | failure
  deriving DecidableEq

/-- create_and_broadcast_block (libminingshim.c lines 281-322).  First
resolves create_block through dlsym (parameter create_block_found); when the
symbol is missing it logs and returns with nothing changed.  Otherwise it
builds the template (nonce from the deterministic PRNG, timestamp now in
seconds, version 12, difficulty from the tracker, height 0) and invokes the
collaborator exactly once (its result is the parameter
create_block_success).  On success blocks_found is incremented and
last_block_time_ns is set to now; on failure mining_errors is incremented
and blocks_found is NOT touched.  The function never writes the mining
state, so a failed broadcast cannot stop mining. -/
def create_and_broadcast_block (m : ShimMetrics) (t : DifficultyTracker)
    (s : PrngState) (create_block_found create_block_success : Bool)
    (now : Nat) :
    ShimMetrics × PrngState × BroadcastOutcome × Option BlockTemplate :=
  if create_block_found then
    let n := generate_deterministic_nonce s
    let template : BlockTemplate :=
      ⟨n.1, now / 1000000000, 12, get_current_network_difficulty t, 0⟩
    if create_block_success then
      ({ m with blocks_found := u64mod (m.blocks_found + 1),
                last_block_time_ns := now },
       n.2, .success, some template)
    else
      ({ m with mining_errors := u64mod (m.mining_errors + 1) },
       n.2, .failure, some template)
  else (m, s, .collaborator_missing, none)

/-- Outcome of the pthread_cond_timedwait of one loop pass: ETIMEDOUT (the
full computed delay elapsed), 0 (woken early by a cond_signal from a peer
block, a difficulty change or stop), or another error code. -/
inductive WaitResult where
  | timed_out
  | signaled
  | wait_error
  deriving DecidableEq

/-- Observable effect of one pass through the while body of mining_loop. -/
structure IterStep where
  exited : Bool
  difficulty_used : Option Nat
  delay : Option U64Cast
  broadcast_invocations : Nat
  metrics : ShimMetrics
  prng : PrngState
  deriving DecidableEq

/-- One pass of the mining_loop while body (libminingshim.c lines 332-392).
Since is_mining is written only by other threads, its value at the loop
guard and at the locked re-check before the wait are independent Bool
parameters.  The pass: exit when the guard sees false; otherwise read the
current difficulty and hashrate, compute the delay (one PRNG draw; neglog
as in calculate_block_discovery_time), exit when the re-check sees false;
otherwise wait, with the given outcome.  ETIMEDOUT runs
create_and_broadcast_block once and continues; a signal wake or an error
code only logs and continues to the next guard check.  The pass never
writes is_mining and never emits a discovery event on a signalled wake. -/
def mining_iteration (hashrate : Nat) (t : DifficultyTracker)
    (mining_at_guard mining_at_recheck : Bool) (m : ShimMetrics)
    (s : PrngState) (neglog : FpVal) (wait : WaitResult)
    (create_block_found create_block_success : Bool) (now : Nat) : IterStep :=
  if mining_at_guard then
    let difficulty := get_current_network_difficulty t
    let d := calculate_block_discovery_time hashrate difficulty s neglog
    if mining_at_recheck then
      match wait with
      | .timed_out =>
        let r := create_and_broadcast_block m t d.2 create_block_found
          create_block_success now
        ⟨false, some difficulty, some d.1,
         if create_block_found then 1 else 0, r.1, r.2.1⟩
      | .signaled => ⟨false, some difficulty, some d.1, 0, m, d.2⟩
      | .wait_error => ⟨false, some difficulty, some d.1, 0, m, d.2⟩
    else ⟨true, some difficulty, some d.1, 0, m, d.2⟩
  else ⟨true, none, none, 0, m, s⟩


/-- Helper: the drand48 state update always lands below the 48-bit modulus. -/
theorem drand48_iterate_lt (x : Nat) : drand48_iterate x < M48 :=
  Nat.mod_lt _ (by norm_num [M48])

/-- Helper: a single draw is nonnegative. -/
theorem get_deterministic_random_nonneg (s : PrngState) :
    0 ≤ (get_deterministic_random s).1 := by
  show (0 : ℚ) ≤ (drand48_iterate s.x : ℚ) / (M48 : ℚ)
  positivity

/-- Helper: a single draw is strictly below one. -/
theorem get_deterministic_random_lt_one (s : PrngState) :
    (get_deterministic_random s).1 < 1 := by
  show ((drand48_iterate s.x : ℚ)) / (M48 : ℚ) < 1
  rw [div_lt_one (by norm_num [M48])]
  exact_mod_cast drand48_iterate_lt s.x

/-- Helper: unfolding equation of draw_list at a successor length. -/
theorem draw_list_succ (s : PrngState) (n : Nat) :
    (draw_list s (n + 1)).1 =
      (get_deterministic_random s).1 ::
        (draw_list (get_deterministic_random s).2 n).1 := rfl

/-- Helper: every value a run of draws produces lies in [0, 1). -/
theorem draw_list_mem_unit (s : PrngState) (n : Nat) :
    ∀ q ∈ (draw_list s n).1, 0 ≤ q ∧ q < 1 := by
  induction n generalizing s with
  | zero => intro q hq; simp [draw_list] at hq
  | succ k ih =>
    intro q hq
    rw [draw_list_succ] at hq
    rcases List.mem_cons.mp hq with rfl | hmem
    · exact ⟨get_deterministic_random_nonneg s, get_deterministic_random_lt_one s⟩
    · exact ih _ q hmem

/-- Claim C1, counterexample: with lastUpdateHeight = 10, a notification at
the strictly smaller height 3 is not ignored; update_network_difficulty
overwrites the snapshot with (difficulty 7, height 3), so the
DifficultySnapshot state is not left unchanged as the claim requires. -/
theorem difficulty_update_out_of_order_takes_effect :
    (update_network_difficulty ⟨5, 10⟩ init_metrics ⟨3, 7, 0⟩).1 =
      (⟨7, 3⟩ : DifficultyTracker) ∧
    (⟨7, 3⟩ : DifficultyTracker) ≠ (⟨5, 10⟩ : DifficultyTracker) :=
  ⟨rfl, by decide⟩

/-- Claim C1, amended: update_network_difficulty applies every notification
unconditionally; currentDifficulty and lastUpdateHeight are overwritten for
every height, with no out-of-order check against lastUpdateHeight, and
peerBlocksReceived is incremented on every call. -/
theorem difficulty_update_unconditional (t : DifficultyTracker)
    (m : ShimMetrics) (nb : BlockInfo) :
    (update_network_difficulty t m nb).1.current_difficulty = nb.difficulty ∧
    (update_network_difficulty t m nb).1.last_update_height = nb.height ∧
    (update_network_difficulty t m nb).2.peer_blocks_received =
      u64mod (m.peer_blocks_received + 1) :=
  ⟨rfl, rfl, rfl⟩

/-- Claim C2, counterexample: calculate_block_discovery_time has no error
result at all.  With hashrate 1000 and difficulty 0 it returns the ordinary
delay 0 (the finite quotient of the draw term by the infinity 1000/0), and
with hashrate 0 and difficulty 1000 the delay is the undefined u64 cast of
an infinity-derived double; neither input makes the function fail with an
InvalidRate error. -/
theorem discovery_time_zero_inputs_no_error :
    (calculate_block_discovery_time 1000 0 ⟨6632206, 101⟩
      (.finite (1 / 2))).1 = .val 0 ∧
    (calculate_block_discovery_time 0 1000 ⟨6632206, 101⟩
      (.finite (1 / 2))).1 = .undefined_value := by
  constructor <;>
    norm_num [calculate_block_discovery_time, fpDiv, fpMul1e9, fpToU64, U64]

/-- Claim C2, amended: calculate_block_discovery_time performs no rate
validation and cannot signal an error.  For every hashrate at least 1 and
every finite draw term, difficulty 0 yields the ordinary delay 0; for every
difficulty and every finite draw term, hashrate 0 yields an infinity- or
NaN-derived double whose cast to u64 is undefined. -/
theorem discovery_time_no_rate_validation (h d : Nat) (s : PrngState)
    (q : ℚ) (hh : 1 ≤ h) :
    (calculate_block_discovery_time h 0 s (.finite q)).1 = .val 0 ∧
    (calculate_block_discovery_time 0 d s (.finite q)).1 = .undefined_value := by
  constructor
  · have hpos : (0 : ℚ) < (h : ℚ) := by exact_mod_cast hh
    norm_num [calculate_block_discovery_time, fpDiv, fpMul1e9, fpToU64,
      hpos.ne', hpos, U64]
  · rcases eq_or_ne ((d : Nat) : ℚ) 0 with hd | hd
    · norm_num [calculate_block_discovery_time, fpDiv, fpMul1e9, fpToU64, hd]
    · simp only [calculate_block_discovery_time, fpDiv, fpMul1e9, fpToU64,
        Nat.cast_zero, hd, if_false, zero_div]
      split_ifs <;> rfl

/-- Claim C2, witness for the amended theorem at hashrate 7, difficulty 5
and draw term 1/3. -/
theorem discovery_time_no_rate_validation_witness :
    (calculate_block_discovery_time 7 0 ⟨0, 0⟩ (.finite (1 / 3))).1 =
      .val 0 ∧
    (calculate_block_discovery_time 0 5 ⟨0, 0⟩ (.finite (1 / 3))).1 =
      .undefined_value :=
  discovery_time_no_rate_validation 7 5 ⟨0, 0⟩ (1 / 3) (by norm_num)

/-- Claim C3, counterexample: two start/stop cycles from the zeroed metrics,
the first from time 0 to 100, the second from 200 to 210.  The first stop
records totalMiningTimeNs = 100; the second stop leaves 10, not the
accumulated 100 + 10 = 110 the claim requires, and the counter has
decreased from 100 to 10, so it is not monotonically non-decreasing. -/
theorem total_mining_time_two_sessions_not_accumulated :
    (mining_shim_stop_hook ⟨true⟩
        (mining_shim_start_hook ⟨false⟩ init_metrics true 0).2.2.1
        100).2.2.1.total_mining_time_ns = 100 ∧
    (mining_shim_stop_hook ⟨true⟩
        (mining_shim_start_hook ⟨false⟩
          (mining_shim_stop_hook ⟨true⟩
            (mining_shim_start_hook ⟨false⟩ init_metrics true 0).2.2.1
            100).2.2.1
          true 200).2.2.1
        210).2.2.1.total_mining_time_ns = 10 ∧
    (10 : Nat) < 100 ∧ (10 : Nat) ≠ 100 + (210 - 200) := by
  refine ⟨by decide, by decide, by decide, by decide⟩

/-- Claim C3, amended: a successful stop() OVERWRITES totalMiningTimeNs with
the duration of the just-ended session, now - startedAtNs in u64
arithmetic; the previous value of the counter is discarded rather than
added to, so the counter is not monotone across start/stop cycles. -/
theorem stop_overwrites_total_mining_time (m : ShimMetrics) (now : Nat) :
    (mining_shim_stop_hook ⟨true⟩ m now).1 = true ∧
    (mining_shim_stop_hook ⟨true⟩ m now).2.1 = (⟨false⟩ : MiningState) ∧
    (mining_shim_stop_hook ⟨true⟩ m now).2.2.1.total_mining_time_ns =
      u64sub now m.mining_start_time ∧
    (mining_shim_stop_hook ⟨true⟩ m now).2.2.1.blocks_found =
      m.blocks_found :=
  ⟨rfl, rfl, rfl, rfl⟩

/-- Claim C4, counterexample: starting from the initialized tracker
(difficulty 1), the accepted update carrying difficulty 0 at height 1 sets
currentDifficulty to 0, so the invariant currentDifficulty at least 1 is
not preserved by every accepted difficulty-update notification and a read
can return 0. -/
theorem difficulty_zero_update_breaks_invariant :
    init_mining_state.2.current_difficulty = 1 ∧
    get_current_network_difficulty
      (update_network_difficulty init_mining_state.2 init_metrics
        ⟨1, 0, 0⟩).1 = 0 :=
  ⟨rfl, rfl⟩

/-- Claim C4, amended: currentDifficulty is 1 initially (the default before
any update, never 0), but the update path does not enforce the invariant:
the stored value is exactly the notified difficulty, so it stays at least 1
only when the notification carries difficulty at least 1. -/
theorem difficulty_default_one_updates_passthrough :
    init_mining_state.2.current_difficulty = 1 ∧
    ∀ (t : DifficultyTracker) (m : ShimMetrics) (nb : BlockInfo),
      1 ≤ nb.difficulty →
        1 ≤ (update_network_difficulty t m nb).1.current_difficulty :=
  ⟨rfl, fun _ _ _ h => h⟩

/-- Claim C4, witness for the amended theorem at a notification with
difficulty 5 and height 2. -/
theorem difficulty_default_one_updates_passthrough_witness :
    1 ≤ (update_network_difficulty ⟨1, 0⟩ init_metrics
      ⟨2, 5, 0⟩).1.current_difficulty :=
  difficulty_default_one_updates_passthrough.2 ⟨1, 0⟩ init_metrics ⟨2, 5, 0⟩
    (by decide)

/-- Claim C5, confirmed: a loop pass whose wait is interrupted before expiry
by a cond_signal (peer block or difficulty change) while mining is still
active emits no block-discovered event (the broadcast collaborator is not
invoked), leaves all metrics (blocksFound included) unchanged, and
continues; and every loop pass that reaches the delay computation derives
its delay from the difficulty the tracker holds at that moment, so the pass
after an interruption recomputes against the possibly-updated tracker while
the interrupted delay is discarded unused. -/
theorem interrupted_wait_no_discovery (hashrate : Nat)
    (t t2 : DifficultyTracker) (m m2 : ShimMetrics) (s s2 : PrngState)
    (neglog neglog2 : FpVal) (cbf cbs cbf2 cbs2 : Bool) (wait2 : WaitResult)
    (now now2 : Nat) :
    (mining_iteration hashrate t true true m s neglog .signaled cbf cbs
      now).broadcast_invocations = 0 ∧
    (mining_iteration hashrate t true true m s neglog .signaled cbf cbs
      now).metrics = m ∧
    (mining_iteration hashrate t true true m s neglog .signaled cbf cbs
      now).exited = false ∧
    (mining_iteration hashrate t2 true true m2 s2 neglog2 wait2 cbf2 cbs2
      now2).difficulty_used = some (get_current_network_difficulty t2) ∧
    (mining_iteration hashrate t2 true true m2 s2 neglog2 wait2 cbf2 cbs2
      now2).delay = some (calculate_block_discovery_time hashrate
        (get_current_network_difficulty t2) s2 neglog2).1 := by
  refine ⟨rfl, rfl, rfl, ?_, ?_⟩ <;> cases wait2 <;> rfl

/-- Claim C6, counterexample: a pass whose wait expires naturally and whose
broadcast collaborator reports failure leaves blocksFound at 0 (not
incremented) and lastBlockTimeNs at 0 (not set to now = 42), while
miningErrors becomes 1; the claim asserts blocksFound is incremented and
lastBlockTimeNs is set on every natural expiry. -/
theorem broadcast_failure_blocks_found_unchanged :
    (mining_iteration 1000 ⟨1, 0⟩ true true init_metrics ⟨6632206, 101⟩
      (.finite (1 / 2)) .timed_out true false 42).broadcast_invocations
      = 1 ∧
    (mining_iteration 1000 ⟨1, 0⟩ true true init_metrics ⟨6632206, 101⟩
      (.finite (1 / 2)) .timed_out true false 42).metrics.blocks_found
      = 0 ∧
    (mining_iteration 1000 ⟨1, 0⟩ true true init_metrics ⟨6632206, 101⟩
      (.finite (1 / 2)) .timed_out true false 42).metrics.last_block_time_ns
      = 0 ∧
    (mining_iteration 1000 ⟨1, 0⟩ true true init_metrics ⟨6632206, 101⟩
      (.finite (1 / 2)) .timed_out true false 42).metrics.mining_errors
      = 1 := by
  refine ⟨rfl, ?_, ?_, ?_⟩ <;>
    norm_num [mining_iteration, create_and_broadcast_block, init_metrics,
      u64mod, U64]

/-- Claim C6, amended: in every pass whose wait expires naturally with the
collaborator symbol resolved, the collaborator is invoked exactly once and
the loop continues (mining is not stopped; the pass never writes
is_mining); on success blocksFound is incremented and lastBlockTimeNs is
set to now, while on failure miningErrors is incremented instead and
blocksFound and lastBlockTimeNs are left unchanged. -/
theorem natural_expiry_broadcast_once (hashrate : Nat)
    (t : DifficultyTracker) (m : ShimMetrics) (s : PrngState)
    (neglog : FpVal) (cbs : Bool) (now : Nat) :
    (mining_iteration hashrate t true true m s neglog .timed_out true cbs
      now).broadcast_invocations = 1 ∧
    (mining_iteration hashrate t true true m s neglog .timed_out true cbs
      now).exited = false ∧
    (mining_iteration hashrate t true true m s neglog .timed_out true cbs
      now).metrics =
      (if cbs then
        { m with blocks_found := u64mod (m.blocks_found + 1),
                 last_block_time_ns := now }
      else { m with mining_errors := u64mod (m.mining_errors + 1) }) := by
  refine ⟨rfl, rfl, ?_⟩
  cases cbs <;> rfl

/-- Claim C7, counterexample: with MINER_HASHRATE missing (and the other two
variables present), load_configuration leaves the zero-filled global
configuration untouched, silently keeping hashrate 0, agent id 0 and seed 0
as defaults, and the start hook afterwards still reports the request
handled and enters the Running state instead of refusing. -/
theorem missing_hashrate_still_enters_running :
    load_configuration zero_config none (some 7) (some 9) = zero_config ∧
    zero_config.miner_hashrate = 0 ∧
    (mining_shim_start_hook ⟨false⟩ init_metrics true 5).1 = true ∧
    (mining_shim_start_hook ⟨false⟩ init_metrics true 5).2.1.is_mining =
      true :=
  ⟨rfl, rfl, rfl, rfl⟩

/-- Claim C7, amended: a missing required configuration input is not fatal:
whichever of the three variables is absent, load_configuration returns with
the zero-filled configuration unchanged (hashrate, agent id and seed keep
the silent default 0), and the start hook still transitions Idle to Running
and reports success, with no refusal. -/
theorem missing_config_not_fatal (hv a sv : Option Nat) (m : ShimMetrics)
    (now : Nat) :
    load_configuration zero_config none a sv = zero_config ∧
    load_configuration zero_config hv none sv = zero_config ∧
    load_configuration zero_config hv a none = zero_config ∧
    (mining_shim_start_hook ⟨false⟩ m true now).1 = true ∧
    (mining_shim_start_hook ⟨false⟩ m true now).2.1.is_mining = true := by
  refine ⟨?_, ?_, ?_, rfl, rfl⟩
  · cases a <;> cases sv <;> rfl
  · cases hv <;> cases sv <;> rfl
  · cases hv <;> cases a <;> rfl

/-- Claim C8, confirmed: the RNG Source is a deterministic function of the
seed and the draw index.  The derived seed is agentSeed =
globalSeed + agentId (u64), and two runs that are both seeded by
initializing from the same (globalSeed, agentId) and each perform n draws
produce identical sequences, every element of which lies in [0, 1). -/
theorem rng_run_deterministic_in_unit_interval (g a n : Nat)
    (s1 s2 : PrngState)
    (h1 : s1 = init_deterministic_prng ⟨0, a, g⟩)
    (h2 : s2 = init_deterministic_prng ⟨0, a, g⟩) :
    s1.agent_seed = u64mod (g + a) ∧
    (draw_list s1 n).1 = (draw_list s2 n).1 ∧
    ∀ q ∈ (draw_list s1 n).1, 0 ≤ q ∧ q < 1 := by
  subst h1
  subst h2
  exact ⟨rfl, rfl, draw_list_mem_unit _ n⟩

/-- Claim C8, witness: globalSeed 100, agentId 1, one draw; the single value
both runs produce is 34300881621249 / 2 ^ 48, which lies in [0, 1). -/
theorem rng_run_deterministic_in_unit_interval_witness :
    0 ≤ ((34300881621249 : ℚ) / 281474976710656) ∧
    ((34300881621249 : ℚ) / 281474976710656) < 1 :=
  (rng_run_deterministic_in_unit_interval 100 1 1
      (init_deterministic_prng ⟨0, 1, 100⟩)
      (init_deterministic_prng ⟨0, 1, 100⟩) rfl rfl).2.2 _
    (by norm_num [draw_list, get_deterministic_random,
      init_deterministic_prng, srand48_state, drand48_iterate, u64mod, U64,
      U32, M48, DRAND48_A, DRAND48_C])

/-- Claim C9, counterexample: one difficulty-changed notification
(mining_shim_difficulty_update_hook, distinct from the peer-block path)
moves peerBlocksReceived from 0 to 1: the counter does not stay unchanged
as the claim requires. -/
theorem difficulty_hook_increments_peer_blocks :
    init_metrics.peer_blocks_received = 0 ∧
    (mining_shim_difficulty_update_hook ⟨1, 0⟩ init_metrics ⟨false⟩ 50
      2).2.1.peer_blocks_received = 1 := by
  refine ⟨rfl, by decide⟩

/-- Claim C9, amended: both notification paths funnel through
update_network_difficulty, which increments peerBlocksReceived on every
call; hence a difficulty-changed notification increments the counter by one
exactly as the peer-block path does, rather than leaving it unchanged. -/
theorem difficulty_hook_shares_peer_counter (t : DifficultyTracker)
    (m : ShimMetrics) (st : MiningState) (d h : Nat) (nb : BlockInfo) :
    (mining_shim_difficulty_update_hook t m st d h).2.1.peer_blocks_received
      = u64mod (m.peer_blocks_received + 1) ∧
    (handle_new_block_notify t m st nb).2.1.peer_blocks_received
      = u64mod (m.peer_blocks_received + 1) ∧
    (mining_shim_difficulty_update_hook t m st d h).2.1 =
      (update_network_difficulty t m ⟨h, d, 0⟩).2 :=
  ⟨rfl, rfl, rfl⟩

/-- Claim C10, confirmed: start() while already Running returns the handled
(non-error) result with the run state, the metrics and the spawned-thread
indicator all unchanged, and stop() while Idle returns the handled result
immediately with nothing changed and no join performed. -/
theorem double_start_double_stop_noop (m m2 : ShimMetrics) (pok : Bool)
    (now now2 : Nat) :
    mining_shim_start_hook ⟨true⟩ m pok now =
      (true, ⟨true⟩, m, false) ∧
    mining_shim_stop_hook ⟨false⟩ m2 now2 =
      (true, ⟨false⟩, m2, false) :=
  ⟨rfl, rfl⟩
